import Mathlib

/-!
# Verification of the forum client/server reliable-datagram system

Shallow embedding of the Python sources (`server.py`, the client in
`unnamed/part_000`) and proofs about the embedded operations.

Conventions:
* Python `str` values are modelled as Lean `String` (a list of characters);
  raw datagram / file bytes are modelled as `List Nat` (byte values).
* Helper functions prefixed `py` reproduce the semantics of the Python
  string/int library functions actually used by the sources (ASCII domain).
* Fallible operations return `Option`; loops that block forever are modelled
  over the finite list of events they consume, `none` meaning the loop is
  still waiting when the modelled event stream ends.
-/

/-- The characters stripped by Python `str.strip()` (ASCII whitespace). -/
def isPySpace (c : Char) : Bool :=
  c = ' ' || c = '\t' || c = '\n' || c = '\r' || c = '\x0b' || c = '\x0c'

/-- Python `str.strip()` on a character list. -/
def pyStripL (l : List Char) : List Char :=
  ((l.dropWhile isPySpace).reverse.dropWhile isPySpace).reverse

/-- Python `str.strip()`. -/
def pyStrip (s : String) : String := String.mk (pyStripL s.data)

/-- Split a list at the first occurrence of `sep`: returns the part before it
and, when `sep` occurs, the part after it.  This is the engine behind Python
`split(sep, 1)` for a one-character separator. -/
def splitOnce {α : Type} [DecidableEq α] (sep : α) : List α → List α × Option (List α)
  | [] => ([], none)
  | c :: r =>
    if c = sep then ([], some r)
    else
      let p := splitOnce sep r
      (c :: p.1, p.2)

/-- Python `s.split(" ", 1)`, presented as (first part, rest if a space occurred). -/
def pySplitOnce (s : String) : String × Option String :=
  let p := splitOnce ' ' s.data
  (String.mk p.1, p.2.map String.mk)

/-- Python `s.split(" ", 2)`: up to three parts. -/
def pySplit2 (s : String) : List String :=
  match splitOnce ' ' s.data with
  | (a, none) => [String.mk a]
  | (a, some r) =>
    match splitOnce ' ' r with
    | (b, none) => [String.mk a, String.mk b]
    | (b, some r2) => [String.mk a, String.mk b, String.mk r2]

/-- Python `str.upper()` on the ASCII verbs used by the protocol. -/
def pyUpper (s : String) : String := String.mk (s.data.map Char.toUpper)

/-- Numeric value of a decimal digit character. -/
def digitVal (c : Char) : Nat := c.toNat - 48

/-- Digit-run parser for Python `int()`: digits with single underscores
allowed between digits (Python 3 literal rule). Accumulator form. -/
def pyDigitsGo (acc : Nat) : List Char → Option Nat
  | [] => some acc
  | c :: r =>
    if c.isDigit then pyDigitsGo (acc * 10 + digitVal c) r
    else if c = '_' then
      match r with
      | d :: r2 => if d.isDigit then pyDigitsGo (acc * 10 + digitVal d) r2 else none
      | [] => none
    else none

/-- A nonempty digit run (Python `int()` body after sign). -/
def pyDigits : List Char → Option Nat
  | [] => none
  | c :: r => if c.isDigit then pyDigitsGo (digitVal c) r else none

/-- Python `int(s)` on ASCII input: strips whitespace, optional sign, decimal
digits; `none` models the `ValueError` the sources catch. -/
def pyInt? (s : String) : Option Int :=
  match pyStripL s.data with
  | '+' :: r => (pyDigits r).map Int.ofNat
  | '-' :: r => (pyDigits r).map fun n => -(n : Int)
  | r => (pyDigits r).map Int.ofNat

/-- Python `s.startswith(pre)`. -/
def pyStartswith (s pre : String) : Bool := pre.data.isPrefixOf s.data

/-- Engine of Python `needle in hay` (contiguous substring search). -/
def containsSubL (needle : List Char) : List Char → Bool
  | [] => needle.isPrefixOf []
  | c :: t => needle.isPrefixOf (c :: t) || containsSubL needle t

/-- Python `needle in hay` for strings. -/
def strContains (hay needle : String) : Bool := containsSubL needle.data hay.data

/-- Engine of Python `s.replace(pat, rep, 1)`: replace the leftmost
occurrence of `pat` (if any). -/
def replaceFirstL (pat rep : List Char) : List Char → List Char
  | [] => if pat.isPrefixOf ([] : List Char) then rep else []
  | c :: r =>
    if pat.isPrefixOf (c :: r) then rep ++ (c :: r).drop pat.length
    else c :: replaceFirstL pat rep r

/-- Python `s.replace(pat, rep, 1)`. -/
def replaceFirst (s pat rep : String) : String :=
  String.mk (replaceFirstL pat.data rep.data s.data)

/-- Python `s.split(" ", 1)[0]`: the leading space-delimited token. -/
def firstToken (s : String) : String := String.mk (splitOnce ' ' s.data).1

/-! ## Transport constants (server.py lines 17-21) -/

def BUFFER_SIZE : Nat := 1024
def MAX_RETRIES : Nat := 3

/-! ## `reliable_send` retry loop (server.py lines 38-62)

The loop interacts with the socket once per iteration: either `recvfrom`
times out (`timeout`), or a datagram arrives whose text parses as the
integer `n` (`ackNum n`), or a datagram arrives that makes `int()` raise
`ValueError` (`ackBad`).  Under simulated loss rate 1 the frame is never
transmitted, so in a closed sender/receiver pair every event is a timeout.
The loop is modelled over the finite list of socket events it consumes;
`none` means the loop was still waiting for more events. -/

inductive AckEvent where
  | timeout : AckEvent
  | ackNum : Int → AckEvent
  | ackBad : AckEvent
deriving DecidableEq

/-- The `while attempts < MAX_RETRIES` loop of `reliable_send`:
timeout increments `attempts`; a mismatched or malformed ack leaves
`attempts` unchanged and loops; a matching ack returns `True`;
exhausting the bound returns `False`. -/
def reliable_send (seq : Nat) : Nat → List AckEvent → Option Bool
  | attempts, [] => if MAX_RETRIES ≤ attempts then some false else none
  | attempts, e :: rest =>
    if MAX_RETRIES ≤ attempts then some false
    else
      match e with
      | AckEvent.timeout => reliable_send seq (attempts + 1) rest
      | AckEvent.ackNum n =>
        if n = (seq : Int) then some true else reliable_send seq attempts rest
      | AckEvent.ackBad => reliable_send seq attempts rest

/-- Number of timeout events in a stream. -/
def timeoutCount : List AckEvent → Nat
  | [] => 0
  | AckEvent.timeout :: r => timeoutCount r + 1
  | AckEvent.ackNum _ :: r => timeoutCount r
  | AckEvent.ackBad :: r => timeoutCount r

/-! ## Byte-level datagram processing (`reliable_recv`, server.py lines 65-93)

A received datagram is a byte string.  The code first tries
`data.decode()` (strict UTF-8); on success it looks for the `'|'`
delimiter (byte 124 — within valid UTF-8, byte 124 occurs exactly at the
characters `'|'` of the decoded string, since continuation bytes are
≥ 0x80); on `UnicodeDecodeError` it falls to the binary branch
`data.split(b'|', 2)`. -/

/-- State of the strict UTF-8 acceptance automaton: how many continuation
bytes are still required, and the admissible range of the next byte when
one is required (the first continuation byte after some leaders is
restricted to exclude overlong forms, surrogates and values > U+10FFFF). -/
structure Utf8State where
  need : Nat
  lo : Nat
  hi : Nat
deriving DecidableEq

/-- One byte of the strict (RFC 3629) UTF-8 acceptance automaton — the
acceptance domain of Python `bytes.decode()`. -/
def utf8Step (st : Utf8State) (b : Nat) : Option Utf8State :=
  if st.need = 0 then
    if b ≤ 0x7F then some ⟨0, 0, 0⟩
    else if 0xC2 ≤ b && b ≤ 0xDF then some ⟨1, 0x80, 0xBF⟩
    else if b = 0xE0 then some ⟨2, 0xA0, 0xBF⟩
    else if (0xE1 ≤ b && b ≤ 0xEC) || b = 0xEE || b = 0xEF then some ⟨2, 0x80, 0xBF⟩
    else if b = 0xED then some ⟨2, 0x80, 0x9F⟩
    else if b = 0xF0 then some ⟨3, 0x90, 0xBF⟩
    else if 0xF1 ≤ b && b ≤ 0xF3 then some ⟨3, 0x80, 0xBF⟩
    else if b = 0xF4 then some ⟨3, 0x80, 0x8F⟩
    else none
  else if st.lo ≤ b && b ≤ st.hi then some ⟨st.need - 1, 0x80, 0xBF⟩
  else none

/-- Run of the UTF-8 automaton over a byte list. -/
def utf8Run : Utf8State → List Nat → Bool
  | st, [] => st.need = 0
  | st, b :: r =>
    match utf8Step st b with
    | none => false
    | some st2 => utf8Run st2 r

/-- Whether Python `bytes.decode()` succeeds on these bytes. -/
def isValidUTF8 (l : List Nat) : Bool := utf8Run ⟨0, 0, 0⟩ l

/-- Python `bytes.split(b'|', 2)` (at most three parts). -/
def splitMax2 {α : Type} [DecidableEq α] (sep : α) (l : List α) : List (List α) :=
  match splitOnce sep l with
  | (a, none) => [a]
  | (a, some r) =>
    match splitOnce sep r with
    | (b, none) => [a, b]
    | (b, some r2) => [a, b, r2]

/-- The UTF-8 bytes of an ASCII string (all sources' literals are ASCII). -/
def strBytes (s : String) : List Nat := s.data.map Char.toNat

/-- The byte 124 = `'|'`. -/
def pipeByte : Nat := 124

/-- Decimal representation of a natural number as ASCII bytes
(Python `str(n)`), via a fuel-bounded accumulator so that it reduces
definitionally. -/
def natBytesAux : Nat → Nat → List Nat → List Nat
  | 0, _, acc => acc
  | fuel + 1, n, acc =>
    if n < 10 then (48 + n) :: acc
    else natBytesAux fuel (n / 10) ((48 + n % 10) :: acc)

/-- Python `str(n).encode()` for a natural number. -/
def natBytes (n : Nat) : List Nat := natBytesAux (n + 1) n []

/-- What one pass of `reliable_recv`'s body does with an arriving datagram
that survives the simulated-loss coin flip. -/
inductive RecvOutcome where
  /-- the function returns this payload with `is_binary = False` -/
  | text : List Nat → RecvOutcome
  /-- the function returns this payload with `is_binary = True` -/
  | binary : List Nat → RecvOutcome
  /-- no return: the `while True` loop keeps waiting -/
  | skip : RecvOutcome
deriving DecidableEq

/-- Processing of one received datagram by `reliable_recv`
(server.py lines 74-88; identical in the client, part_000 lines 69-83).
Returns the outcome together with the list of acknowledgment datagrams
sent back, in order, before returning. -/
def reliable_recv (data : List Nat) : RecvOutcome × List (List Nat) :=
  if isValidUTF8 data then
    match splitOnce pipeByte data with
    | (seqB, some payload) => (RecvOutcome.text payload, [seqB])
    | (_, none) => (RecvOutcome.text data, [])
  else
    match splitMax2 pipeByte data with
    | [s, _, p] =>
      if isValidUTF8 s then (RecvOutcome.binary p, [s]) else (RecvOutcome.skip, [])
    | _ => (RecvOutcome.skip, [])

/-- The frame `reliable_send` builds for text payloads:
`f"{seq_num}|{data}".encode()` (server.py line 45). -/
def textFrame (seq : Nat) (payload : List Nat) : List Nat :=
  natBytes seq ++ pipeByte :: payload

/-- The frame `reliable_send` builds for binary payloads:
`f"{seq_num}|BIN|".encode() + data` (server.py lines 42-43). -/
def binFrame (seq : Nat) (raw : List Nat) : List Nat :=
  natBytes seq ++ pipeByte :: (strBytes "BIN" ++ pipeByte :: raw)

/-! ## Bulk transfer loops (server.py lines 567-573 and 645-651) -/

/-- The UPD receive loop: reads stream chunks until an empty chunk
(stream closed) or a chunk equal to `b'EOF'`, writing the rest to the
destination file.  The input is the list of successive `recv` results;
the result is the byte sequence written. -/
def updRecvLoop : List (List Nat) → List Nat
  | [] => []
  | c :: rest =>
    if c = [] || c = strBytes "EOF" then []
    else c ++ updRecvLoop rest

/-- The DWN send loop, reading the stored file in `BUFFER_SIZE` chunks
until exhaustion and sending each chunk; fuel-bounded for definitional
reduction (the fuel `file.length` always suffices). -/
def dwnChunksAux : Nat → List Nat → List Nat
  | 0, _ => []
  | fuel + 1, file =>
    if file = [] then []
    else file.take BUFFER_SIZE ++ dwnChunksAux fuel (file.drop BUFFER_SIZE)

/-- Byte sequence sent by the DWN send loop for a stored file. -/
def dwnSend (file : List Nat) : List Nat := dwnChunksAux file.length file

/-! ## Session registry (`logged_users`, server.py lines 24, 149-156, 677-681)

The Python `set` of logged-in usernames is modelled as a duplicate-free
list; `remove` is `List.erase`. -/

/-- Outcome of the pre-authentication checks of `client_handler`
(server.py lines 139-156): empty username, duplicate login, or proceed. -/
inductive AuthGate where
  | invalidUsername : AuthGate
  | inUse : AuthGate
  | proceed : AuthGate
deriving DecidableEq

/-- `username = data.strip()`; `if not username` → "Invalid username";
`if username in logged_users` → "Username in use"; otherwise continue. -/
def authGate (reg : List String) (u : String) : AuthGate :=
  if u = "" then AuthGate.invalidUsername
  else if reg.contains u then AuthGate.inUse
  else AuthGate.proceed

/-- The `finally` block of `client_handler` (server.py lines 677-681):
`if username in logged_users: logged_users.remove(username)`, run on every
exit path of the worker. -/
def sessionFinally (u : String) (reg : List String) : List String :=
  if reg.contains u then reg.erase u else reg

/-! ## Forum state and the command dispatcher (server.py lines 213-673)

The working directory is modelled as an association list from file name to
the `readlines()` view of the file (every line the server writes is
`'\n'`-terminated, so the two views agree) together with the list of
directory names present (the server unconditionally creates `uploads`,
server.py lines 29-30).  `os.path.exists` is true for files and
directories alike; `open()` on a name that exists but is not a regular
file raises `IsADirectoryError`, which no handler traps: it escapes to the
`except` at server.py line 675 and the session dies without a further
reply.  The per-thread upload namespace `uploads/<thread>/<file>` is an
association list keyed by (thread, filename) holding the stored file's
byte count (the bytes themselves are modelled separately by
`updRecvLoop`). -/

structure SState where
  files : List (String × List String)
  dirs : List String
  uploads : List ((String × String) × Nat)
  regUsers : List String
deriving DecidableEq

/-- `os.path.exists(title)` over the modelled working directory: true for
regular files and for directories such as `uploads`. -/
def fsExists (st : SState) (t : String) : Bool :=
  (st.files.lookup t).isSome || st.dirs.contains t

/-- Write a file (create or overwrite). -/
def setFileAux (t : String) (ls : List String) :
    List (String × List String) → List (String × List String)
  | [] => [(t, ls)]
  | (n, c) :: rest =>
    if n = t then (n, ls) :: rest else (n, c) :: setFileAux t ls rest

def setFile (st : SState) (t : String) (ls : List String) : SState :=
  { st with files := setFileAux t ls st.files }

/-- `os.remove(title)`. -/
def removeFile (st : SState) (t : String) : SState :=
  { st with files := st.files.filter fun p => p.1 ≠ t }

/-- Whether `uploads/<t>/<f>` exists. -/
def uploadExists (st : SState) (t f : String) : Bool :=
  (st.uploads.lookup (t, f)).isSome

/-- `os.path.getsize` of a stored upload. -/
def uploadSize (st : SState) (t f : String) : Nat :=
  (st.uploads.lookup (t, f)).getD 0

/-- Store an upload record (byte count not tracked by the dispatcher model). -/
def putUpload (st : SState) (t f : String) (sz : Nat) : SState :=
  { st with uploads := ((t, f), sz) :: st.uploads.filter fun p => p.1 ≠ (t, f) }

/-- Purge the upload namespace of a removed thread (server.py lines 503-507). -/
def purgeUploads (st : SState) (t : String) : SState :=
  { st with uploads := st.uploads.filter fun p => p.1.1 ≠ t }

/-- A directory entry as seen by `os.listdir`: a name plus whether
`os.path.isfile` holds for it. -/
structure DirEntry where
  name : String
  isFile : Bool
deriving DecidableEq

/-- The names excluded from thread listings (server.py lines 125-127). -/
def threadExclusions : List String := ["server.py", "client.py", "credentials.txt"]

/-- `get_thread_list` (server.py lines 121-129): every directory entry that
is a regular file, not hidden, and not one of the excluded names. -/
def get_thread_list (listing : List DirEntry) : List String :=
  (listing.filter fun e =>
    e.isFile && !(pyStartswith e.name ".") && !(threadExclusions.contains e.name)).map
    fun e => e.name

/-- The `os.listdir` view of the modelled working directory. -/
def stListing (st : SState) : List DirEntry :=
  st.files.map (fun p => { name := p.1, isFile := true }) ++
    st.dirs.map fun d => { name := d, isFile := false }

/-! ### DLT renumbering pass (server.py lines 386-399) -/

/-- One line of the renumber loop body: if the line is non-blank and
contains a space, replace the first occurrence of
`f"{first_token} "` — which is its leading token — by `f"{i} "`. -/
def rewriteLine (i : Nat) (l : String) : String :=
  if pyStrip l ≠ "" ∧ l.data.contains ' ' then
    replaceFirst l (firstToken l ++ " ") (toString i ++ " ")
  else l

/-- `for i in range(k, len(lines)) : lines[i] = rewrite i lines[i]`,
presented on the suffix starting at index `i`. -/
def renumberAux (i : Nat) : List String → List String
  | [] => []
  | l :: ls => rewriteLine i l :: renumberAux (i + 1) ls

/-- The whole DLT file transformation for a validated message number `n`:
`lines.pop(n)` followed by the renumbering loop from index `n`. -/
def dltRewrite (n : Nat) (lines : List String) : List String :=
  let popped := lines.take n ++ lines.drop (n + 1)
  popped.take n ++ renumberAux n (popped.drop n)

/-! ### Per-verb handlers.  Each takes the state, the session username and
the raw argument text. -/

/-- Outcome of one command: the resulting store state, the reply frames
handed to `reliable_send` in order, and whether an uncaught exception then
escaped to server.py line 675 (killing the session: no further reply for
this or any later command). -/
structure HandlerResult where
  state : SState
  replies : List String
  fatal : Bool
deriving DecidableEq

/-- A command that completed normally. -/
def hrOk (st : SState) (rs : List String) : HandlerResult := ⟨st, rs, false⟩

/-- A command whose handler raised after sending `rs`: the session dies. -/
def hrFatal (st : SState) (rs : List String) : HandlerResult := ⟨st, rs, true⟩

/-- XIT (server.py lines 226-236). -/
def handleXIT (st : SState) (u : String) : HandlerResult :=
  hrOk { st with regUsers := if st.regUsers.contains u then st.regUsers.erase u
                             else st.regUsers }
    ["Goodbye"]

/-- CRT (server.py lines 238-256): the exists check is also true for the
`uploads` directory, which therefore "already exists". -/
def handleCRT (st : SState) (u arg : String) : HandlerResult :=
  if fsExists st arg then
    hrOk st ["Thread " ++ arg ++ " already exists"]
  else
    hrOk (setFile st arg [u ++ "\n"]) ["Thread " ++ arg ++ " created successfully"]

/-- LST (server.py lines 258-271). -/
def handleLST (st : SState) : HandlerResult :=
  let threads := get_thread_list (stListing st)
  if threads ≠ [] then
    hrOk st ["Threads:\n" ++ String.intercalate "\n" threads]
  else
    hrOk st ["No threads available"]

/-- MSG (server.py lines 273-308): `open(thread_title, 'r')` on a name
that exists but is a directory raises before any reply. -/
def handleMSG (st : SState) (u arg : String) : HandlerResult :=
  match pySplitOnce arg with
  | (_, none) => hrOk st ["Invalid message format. Use: MSG threadtitle message"]
  | (t, some m) =>
    if ¬ fsExists st t then hrOk st ["Thread " ++ t ++ " does not exist"]
    else
      match st.files.lookup t with
      | none => hrFatal st []
      | some lines =>
        let msgNumber := lines.length
        hrOk (setFile st t (lines ++ [toString msgNumber ++ " " ++ u ++ ": " ++ m ++ "\n"]))
          ["Message posted to " ++ t]

/-- RDT (server.py lines 310-335): same directory hazard at `open`. -/
def handleRDT (st : SState) (arg : String) : HandlerResult :=
  if ¬ fsExists st arg then hrOk st ["Thread " ++ arg ++ " does not exist"]
  else
    match st.files.lookup arg with
    | none => hrFatal st []
    | some lines =>
      if lines.length ≤ 1 then hrOk st ["Thread " ++ arg ++ " is empty"]
      else hrOk st ["Thread " ++ arg ++ ":\n" ++ String.join (lines.drop 1)]

/-- DLT (server.py lines 337-408): same directory hazard at `open`. -/
def handleDLT (st : SState) (u arg : String) : HandlerResult :=
  match pySplitOnce arg with
  | (_, none) => hrOk st ["Invalid delete format. Use: DLT threadtitle messagenumber"]
  | (t, some numStr) =>
    match pyInt? numStr with
    | none => hrOk st ["Invalid message number"]
    | some k =>
      if ¬ fsExists st t then hrOk st ["Thread " ++ t ++ " does not exist"]
      else
        match st.files.lookup t with
        | none => hrFatal st []
        | some lines =>
          if k ≤ 0 ∨ (lines.length : Int) ≤ k then
            hrOk st ["Message " ++ toString k ++ " does not exist in thread " ++ t]
          else
            let messageLine := lines.getD k.toNat ""
            if ¬ pyStartswith messageLine (toString k ++ " " ++ u ++ ":") then
              hrOk st ["You can only delete your own messages"]
            else
              hrOk (setFile st t (dltRewrite k.toNat lines))
                ["Message " ++ toString k ++ " deleted from " ++ t]

/-- EDT (server.py lines 410-475): same directory hazard at `open`. -/
def handleEDT (st : SState) (u arg : String) : HandlerResult :=
  match pySplit2 arg with
  | t :: numStr :: newMessage :: _ =>
    (match pyInt? numStr with
     | none => hrOk st ["Invalid message number"]
     | some k =>
       if ¬ fsExists st t then hrOk st ["Thread " ++ t ++ " does not exist"]
       else
         match st.files.lookup t with
         | none => hrFatal st []
         | some lines =>
           if k ≤ 0 ∨ (lines.length : Int) ≤ k then
             hrOk st ["Message " ++ toString k ++ " does not exist in thread " ++ t]
           else
             let messageLine := lines.getD k.toNat ""
             if ¬ pyStartswith messageLine (toString k ++ " " ++ u ++ ":") then
               hrOk st ["You can only edit your own messages"]
             else
               hrOk (setFile st t
                   (lines.set k.toNat (toString k ++ " " ++ u ++ ": " ++ newMessage ++ "\n")))
                 ["Message " ++ toString k ++ " edited in " ++ t])
  | _ => hrOk st ["Invalid edit format. Use: EDT threadtitle messagenumber message"]

/-- RMV (server.py lines 477-513): same directory hazard at the creator
read. -/
def handleRMV (st : SState) (u arg : String) : HandlerResult :=
  if ¬ fsExists st arg then hrOk st ["Thread " ++ arg ++ " does not exist"]
  else
    match st.files.lookup arg with
    | none => hrFatal st []
    | some lines =>
      let creator := pyStrip (lines.headD "")
      if creator ≠ u then hrOk st ["You can only remove threads you created"]
      else
        hrOk (purgeUploads (removeFile st arg) arg) ["Thread " ++ arg ++ " removed"]

/-- UPD (server.py lines 515-589): the ready frame is sent and the stream
transfer stored BEFORE the thread record is appended, so a directory-named
thread title raises only after the first reply: the session dies with the
upload stored but no record line and no confirmation. -/
def handleUPD (st : SState) (u arg : String) : HandlerResult :=
  match pySplitOnce arg with
  | (_, none) => hrOk st ["Invalid upload format. Use: UPD threadtitle filename"]
  | (t, some f) =>
    if ¬ fsExists st t then hrOk st ["Thread " ++ t ++ " does not exist"]
    else
      let st1 := putUpload st t f 0
      match st.files.lookup t with
      | none => hrFatal st1 ["Ready for TCP transfer"]
      | some lines =>
        hrOk (setFile st1 t (lines ++ [u ++ " uploaded " ++ f ++ "\n"]))
          ["Ready for TCP transfer", "File " ++ f ++ " uploaded successfully"]

/-- DWN (server.py lines 591-666): never opens the thread title itself, so
no directory hazard; two frames on the happy path. -/
def handleDWN (st : SState) (arg : String) : HandlerResult :=
  match pySplitOnce arg with
  | (_, none) => hrOk st ["Invalid download format. Use: DWN threadtitle filename"]
  | (t, some f) =>
    if ¬ fsExists st t then hrOk st ["Thread " ++ t ++ " does not exist"]
    else if ¬ uploadExists st t f then
      hrOk st ["File " ++ f ++ " does not exist in thread " ++ t]
    else
      hrOk st ["Ready for TCP transfer|" ++ toString (uploadSize st t f),
               "File " ++ f ++ " downloaded successfully"]

/-- One iteration of the authenticated command loop
(server.py lines 213-673): `if not cmd_data: continue` (no reply), then
`parts = cmd.strip().split(" ", 1)`, `command = parts[0].upper()`, then the
`elif` chain (a verb that requires arguments and received none falls
through to the final `else`). -/
def client_handler_step (st : SState) (u : String) (cmdData : String) :
    HandlerResult :=
  if cmdData = "" then hrOk st []
  else
    let parts := pySplitOnce (pyStrip cmdData)
    let command := pyUpper parts.1
    if command = "XIT" then handleXIT st u
    else if command = "CRT" then
      match parts.2 with
      | some a => handleCRT st u a
      | none => hrOk st ["Invalid command"]
    else if command = "LST" then handleLST st
    else if command = "MSG" then
      match parts.2 with
      | some a => handleMSG st u a
      | none => hrOk st ["Invalid command"]
    else if command = "RDT" then
      match parts.2 with
      | some a => handleRDT st a
      | none => hrOk st ["Invalid command"]
    else if command = "DLT" then
      match parts.2 with
      | some a => handleDLT st u a
      | none => hrOk st ["Invalid command"]
    else if command = "EDT" then
      match parts.2 with
      | some a => handleEDT st u a
      | none => hrOk st ["Invalid command"]
    else if command = "RMV" then
      match parts.2 with
      | some a => handleRMV st u a
      | none => hrOk st ["Invalid command"]
    else if command = "UPD" then
      match parts.2 with
      | some a => handleUPD st u a
      | none => hrOk st ["Invalid command"]
    else if command = "DWN" then
      match parts.2 with
      | some a => handleDWN st a
      | none => hrOk st ["Invalid command"]
    else hrOk st ["Invalid command"]

/-! # Lemmas -/

/-- Closed form of the retry loop on a stream with no matching
acknowledgment: it returns `False` as soon as the timeouts reach the
bound, and is otherwise still waiting at the end of the stream. -/
theorem reliable_send_closed_form (seq : Nat) :
    ∀ (evs : List AckEvent) (a : Nat), AckEvent.ackNum (seq : Int) ∉ evs →
      reliable_send seq a evs =
        if MAX_RETRIES ≤ a + timeoutCount evs then some false else none := by
  intro evs
  induction evs with
  | nil =>
    intro a _
    simp [reliable_send, timeoutCount]
  | cons e rest ih =>
    intro a hno
    have hnoRest : AckEvent.ackNum (seq : Int) ∉ rest := by
      intro h
      exact hno (List.mem_cons_of_mem _ h)
    cases e with
    | timeout =>
      by_cases ha : MAX_RETRIES ≤ a
      · have : MAX_RETRIES ≤ a + timeoutCount (AckEvent.timeout :: rest) := by
          omega
        simp [reliable_send, ha, this]
      · have h1 : a + timeoutCount (AckEvent.timeout :: rest) =
            (a + 1) + timeoutCount rest := by
          simp [timeoutCount]
          omega
        simp [reliable_send, ha, ih (a + 1) hnoRest, h1]
    | ackNum n =>
      have hne : n ≠ (seq : Int) := by
        intro h
        subst h
        exact hno (List.mem_cons_self _ _)
      by_cases ha : MAX_RETRIES ≤ a
      · have : MAX_RETRIES ≤ a + timeoutCount (AckEvent.ackNum n :: rest) := by
          omega
        simp [reliable_send, ha, this]
      · simp [reliable_send, ha, hne, ih a hnoRest, timeoutCount]
    | ackBad =>
      by_cases ha : MAX_RETRIES ≤ a
      · have : MAX_RETRIES ≤ a + timeoutCount (AckEvent.ackBad :: rest) := by
          omega
        simp [reliable_send, ha, this]
      · simp [reliable_send, ha, ih a hnoRest, timeoutCount]

/-! # Claims -/

/-- C1: when the simulated loss rate is 1 the frame is never transmitted, so
no matching acknowledgment ever arrives and every wait ends in a timeout.
For any such event stream (no acknowledgment matching the chosen sequence
number), `reliable_send` returns the boolean `False` — it neither hangs nor
raises — exactly when the `MAX_RETRIES`-th timeout-bounded attempt elapses:
with at least `MAX_RETRIES` timeouts it has returned `False`, and with fewer
it has not yet returned. -/
theorem reliable_send_lossRateOne_failsAfterMaxRetries
    (seq : Nat) (evs : List AckEvent)
    (hno : AckEvent.ackNum (seq : Int) ∉ evs) :
    (MAX_RETRIES ≤ timeoutCount evs → reliable_send seq 0 evs = some false) ∧
    (timeoutCount evs < MAX_RETRIES → reliable_send seq 0 evs = none) := by
  have h := reliable_send_closed_form seq evs 0 hno
  constructor
  · intro hc
    rw [h]
    simp [Nat.zero_add, hc]
  · intro hc
    rw [h]
    have hn : ¬ MAX_RETRIES ≤ 0 + timeoutCount evs := by omega
    rw [if_neg hn]

/-- Witness for C1 at a concrete stream: sequence number 7, the socket
yields a timeout, a malformed ack, a timeout, a mismatched ack (5) and a
third timeout; the send returns `False`. -/
theorem reliable_send_lossRateOne_failsAfterMaxRetries_witness :
    reliable_send 7 0
      [AckEvent.timeout, AckEvent.ackBad, AckEvent.timeout,
       AckEvent.ackNum 5, AckEvent.timeout] = some false :=
  (reliable_send_lossRateOne_failsAfterMaxRetries 7
    [AckEvent.timeout, AckEvent.ackBad, AckEvent.timeout,
     AckEvent.ackNum 5, AckEvent.timeout] (by decide)).1 (by decide)

/-- C4 (code bug): with a live session registered as "Han", a second
connection that sends the username "Han" is rejected at the duplicate-login
gate — yet its `finally` block then removes the registry entry added by the
other, still-live session: the registry ends empty instead of still holding
"Han". -/
theorem sessionFinally_removesOtherSessionsEntry :
    authGate ["Han"] "Han" = AuthGate.inUse ∧
    sessionFinally "Han" ["Han"] = [] ∧
    sessionFinally "Han" ["Han"] ≠ ["Han"] := by
  refine ⟨by decide, by decide, by decide⟩

/-! ## Lemmas about splitting and UTF-8 validity -/

theorem splitOnce_nil {α : Type} [DecidableEq α] (sep : α) :
    splitOnce sep ([] : List α) = ([], none) := rfl

theorem splitOnce_cons {α : Type} [DecidableEq α] (sep c : α) (r : List α) :
    splitOnce sep (c :: r) =
      if c = sep then ([], some r)
      else (c :: (splitOnce sep r).1, (splitOnce sep r).2) := rfl

theorem splitOnce_append {α : Type} [DecidableEq α] (sep : α) :
    ∀ (a b : List α), sep ∉ a → splitOnce sep (a ++ sep :: b) = (a, some b) := by
  intro a
  induction a with
  | nil => intro b _; rw [List.nil_append, splitOnce_cons, if_pos rfl]
  | cons c r ih =>
    intro b h
    have hc : ¬ c = sep := by
      intro hc
      exact h (hc ▸ List.mem_cons_self _ _)
    have hr : sep ∉ r := fun hm => h (List.mem_cons_of_mem _ hm)
    rw [List.cons_append, splitOnce_cons, if_neg hc, ih b hr]

theorem splitOnce_of_notMem {α : Type} [DecidableEq α] (sep : α) :
    ∀ l : List α, sep ∉ l → splitOnce sep l = (l, none) := by
  intro l
  induction l with
  | nil => intro _; rfl
  | cons c r ih =>
    intro h
    have hc : ¬ c = sep := by
      intro hc
      exact h (hc ▸ List.mem_cons_self _ _)
    have hr : sep ∉ r := fun hm => h (List.mem_cons_of_mem _ hm)
    rw [splitOnce_cons, if_neg hc, ih hr]

theorem isValidUTF8_of_ascii : ∀ l : List Nat, (∀ b ∈ l, b ≤ 0x7F) → isValidUTF8 l = true := by
  have main : ∀ l : List Nat, (∀ b ∈ l, b ≤ 0x7F) → utf8Run ⟨0, 0, 0⟩ l = true := by
    intro l
    induction l with
    | nil => intro _; rfl
    | cons b r ih =>
      intro h
      have hb : b ≤ 0x7F := h b (List.mem_cons_self _ _)
      have hstep : utf8Step ⟨0, 0, 0⟩ b = some ⟨0, 0, 0⟩ := by
        simp [utf8Step, hb]
      simp only [utf8Run, hstep]
      exact ih fun x hx => h x (List.mem_cons_of_mem _ hx)
  intro l h
  exact main l h

theorem natBytesAux_digits :
    ∀ (fuel n : Nat) (acc : List Nat), (∀ b ∈ acc, 48 ≤ b ∧ b ≤ 57) →
      ∀ b ∈ natBytesAux fuel n acc, 48 ≤ b ∧ b ≤ 57 := by
  intro fuel
  induction fuel with
  | zero => intro n acc hacc; exact hacc
  | succ fuel ih =>
    intro n acc hacc b hb
    simp only [natBytesAux] at hb
    by_cases hn : n < 10
    · rw [if_pos hn] at hb
      rcases List.mem_cons.mp hb with h | h
      · omega
      · exact hacc b h
    · rw [if_neg hn] at hb
      refine ih (n / 10) _ ?_ b hb
      intro x hx
      rcases List.mem_cons.mp hx with h | h
      · have : n % 10 < 10 := Nat.mod_lt _ (by omega)
        omega
      · exact hacc x h

theorem natBytes_digits (n : Nat) : ∀ b ∈ natBytes n, 48 ≤ b ∧ b ≤ 57 :=
  natBytesAux_digits (n + 1) n [] (by intro b hb; cases hb)

theorem pipe_notMem_natBytes (n : Nat) : pipeByte ∉ natBytes n := by
  intro h
  have h2 := (natBytes_digits n pipeByte h).2
  simp [pipeByte] at h2

theorem isValidUTF8_natBytes (n : Nat) : isValidUTF8 (natBytes n) = true :=
  isValidUTF8_of_ascii _ fun b hb => by
    have := natBytes_digits n b hb
    omega

theorem splitMax2_binFrame (seq : Nat) (raw : List Nat) :
    splitMax2 pipeByte (binFrame seq raw) = [natBytes seq, strBytes "BIN", raw] := by
  have h1 : splitOnce pipeByte (binFrame seq raw) =
      (natBytes seq, some (strBytes "BIN" ++ pipeByte :: raw)) := by
    unfold binFrame
    exact splitOnce_append pipeByte _ _ (pipe_notMem_natBytes seq)
  have h2 : splitOnce pipeByte (strBytes "BIN" ++ pipeByte :: raw) =
      (strBytes "BIN", some raw) :=
    splitOnce_append pipeByte _ _ (by decide)
  simp only [splitMax2, h1, h2]

/-- C2 (corrected, counterexample): the datagram `b"hello"` — a legacy
text frame with no `'|'` delimiter — is accepted by `reliable_recv`, which
returns its payload to the caller having sent no acknowledgment at all
(the acknowledgment list is empty). -/
theorem reliable_recv_noDelimiter_noAck :
    reliable_recv (strBytes "hello") = (RecvOutcome.text (strBytes "hello"), []) := by
  decide

theorem splitMax2_two_pipes (seqB mid raw : List Nat)
    (h1 : pipeByte ∉ seqB) (h2 : pipeByte ∉ mid) :
    splitMax2 pipeByte (seqB ++ pipeByte :: (mid ++ pipeByte :: raw)) =
      [seqB, mid, raw] := by
  have hsA : splitOnce pipeByte (seqB ++ pipeByte :: (mid ++ pipeByte :: raw)) =
      (seqB, some (mid ++ pipeByte :: raw)) := splitOnce_append pipeByte _ _ h1
  have hsB : splitOnce pipeByte (mid ++ pipeByte :: raw) = (mid, some raw) :=
    splitOnce_append pipeByte _ _ h2
  simp only [splitMax2, hsA, hsB]

/-- C2 (amended): the receiver acknowledges — with the sequence field, the
bytes before the first delimiter — every accepted frame that contains the
`'|'` delimiter, before returning the payload: both frames decoded as text
and frames accepted through the binary branch (not valid UTF-8, at least
two delimiters, decodable sequence field).  An accepted frame without the
delimiter is returned as text without any acknowledgment being sent. -/
theorem reliable_recv_ack_behavior :
    (∀ (seqB payload : List Nat), pipeByte ∉ seqB →
       isValidUTF8 (seqB ++ pipeByte :: payload) = true →
       reliable_recv (seqB ++ pipeByte :: payload) = (RecvOutcome.text payload, [seqB])) ∧
    (∀ data : List Nat, isValidUTF8 data = true → pipeByte ∉ data →
       reliable_recv data = (RecvOutcome.text data, [])) ∧
    (∀ (seqB mid raw : List Nat), pipeByte ∉ seqB → pipeByte ∉ mid →
       isValidUTF8 (seqB ++ pipeByte :: (mid ++ pipeByte :: raw)) = false →
       isValidUTF8 seqB = true →
       reliable_recv (seqB ++ pipeByte :: (mid ++ pipeByte :: raw)) =
         (RecvOutcome.binary raw, [seqB])) := by
  refine ⟨?_, ?_, ?_⟩
  · intro seqB payload hnp hv
    simp only [reliable_recv, hv, if_true, splitOnce_append pipeByte seqB payload hnp]
  · intro data hv hnp
    simp only [reliable_recv, hv, if_true, splitOnce_of_notMem pipeByte data hnp]
  · intro seqB mid raw h1 h2 hv hs
    simp only [reliable_recv, hv, Bool.false_eq_true, if_false,
      splitMax2_two_pipes seqB mid raw h1 h2, hs, if_true]

/-- Witness for C2's amended statement: the framed datagram `b"42|LST"` is
returned as the text payload `LST` after the ack `b"42"` is sent; the bare
datagram `b"ok"` is returned with no ack; the undecodable binary frame
`b"7|BIN|\xff"` is returned as the binary payload `[0xFF]` after the ack
`b"7"` is sent. -/
theorem reliable_recv_ack_behavior_witness :
    reliable_recv (strBytes "42" ++ pipeByte :: strBytes "LST") =
      (RecvOutcome.text (strBytes "LST"), [strBytes "42"]) ∧
    reliable_recv (strBytes "ok") = (RecvOutcome.text (strBytes "ok"), []) ∧
    reliable_recv (strBytes "7" ++ pipeByte :: (strBytes "BIN" ++ pipeByte :: [0xFF])) =
      (RecvOutcome.binary [0xFF], [strBytes "7"]) :=
  ⟨reliable_recv_ack_behavior.1 (strBytes "42") (strBytes "LST") (by decide) (by decide),
   reliable_recv_ack_behavior.2.1 (strBytes "ok") (by decide) (by decide),
   reliable_recv_ack_behavior.2.2 (strBytes "7") (strBytes "BIN") [0xFF]
     (by decide) (by decide) (by decide) (by decide)⟩

/-- C7 (corrected, counterexample): the binary frame built by
`reliable_send(..., is_binary=True)` for the raw payload `b"hi"` — namely
`b"7|BIN|hi"` — happens to be valid UTF-8, so `reliable_recv` returns it as
the TEXT payload `"BIN|hi"` (with `is_binary = False`), not as the binary
payload `b"hi"` the claim requires. -/
theorem reliable_recv_binMarker_validUTF8_isText :
    reliable_recv (binFrame 7 (strBytes "hi")) =
      (RecvOutcome.text (strBytes "BIN|hi"), [strBytes "7"]) ∧
    (reliable_recv (binFrame 7 (strBytes "hi"))).1 ≠
      RecvOutcome.binary (strBytes "hi") := by
  decide

/-- C7 (amended): frames are disambiguated by UTF-8 decodability, not by
the `BIN` marker alone: a `"<sequence>|BIN|" + rawBytes` frame is returned
as the binary payload `rawBytes` (after acknowledging the sequence field)
exactly when the whole frame fails strict UTF-8 decoding; when the frame is
valid UTF-8 — in particular whenever `rawBytes` is valid UTF-8 — it is
returned as the text payload `"BIN|" + rawBytes` instead. -/
theorem reliable_recv_disambiguatesByDecodability (seq : Nat) (raw : List Nat) :
    (isValidUTF8 (binFrame seq raw) = false →
       reliable_recv (binFrame seq raw) = (RecvOutcome.binary raw, [natBytes seq])) ∧
    (isValidUTF8 (binFrame seq raw) = true →
       reliable_recv (binFrame seq raw) =
         (RecvOutcome.text (strBytes "BIN" ++ pipeByte :: raw), [natBytes seq])) := by
  constructor
  · intro hv
    simp only [reliable_recv, hv, Bool.false_eq_true, if_false,
      splitMax2_binFrame seq raw, isValidUTF8_natBytes seq, if_true]
  · intro hv
    have h1 : splitOnce pipeByte (binFrame seq raw) =
        (natBytes seq, some (strBytes "BIN" ++ pipeByte :: raw)) := by
      unfold binFrame
      exact splitOnce_append pipeByte _ _ (pipe_notMem_natBytes seq)
    simp only [reliable_recv, hv, if_true, h1]

/-- Witness for C7's amended statement: the frame `b"7|BIN|\xff"` is not
valid UTF-8 and is returned as the binary payload `[0xFF]` with ack
`b"7"`; the frame `b"7|BIN|hi"` is valid UTF-8 and is returned as the text
payload `"BIN|hi"`. -/
theorem reliable_recv_disambiguatesByDecodability_witness :
    reliable_recv (binFrame 7 [0xFF]) = (RecvOutcome.binary [0xFF], [strBytes "7"]) ∧
    reliable_recv (binFrame 7 (strBytes "hi")) =
      (RecvOutcome.text (strBytes "BIN" ++ pipeByte :: strBytes "hi"), [strBytes "7"]) :=
  ⟨by
    have h := (reliable_recv_disambiguatesByDecodability 7 [0xFF]).1 (by decide)
    rw [h]
    decide,
   by
    have h := (reliable_recv_disambiguatesByDecodability 7 (strBytes "hi")).2 (by decide)
    rw [h]
    decide⟩

theorem dwnChunksAux_eq_self :
    ∀ (fuel : Nat) (file : List Nat), file.length ≤ fuel → dwnChunksAux fuel file = file := by
  intro fuel
  induction fuel with
  | zero =>
    intro file h
    have : file = [] := List.eq_nil_of_length_eq_zero (by omega)
    subst this
    rfl
  | succ fuel ih =>
    intro file h
    by_cases hf : file = []
    · subst hf; rfl
    · have hlen : (file.drop BUFFER_SIZE).length ≤ fuel := by
        have h1 : (file.drop BUFFER_SIZE).length = file.length - BUFFER_SIZE :=
          List.length_drop _ _
        have h2 : 0 < file.length := List.length_pos.mpr hf
        have h3 : 0 < BUFFER_SIZE := by norm_num [BUFFER_SIZE]
        omega
      simp only [dwnChunksAux, if_neg hf, ih _ hlen, List.take_append_drop]

/-- The DWN send loop transmits the stored file byte-for-byte. -/
theorem dwnSend_eq_self (file : List Nat) : dwnSend file = file :=
  dwnChunksAux_eq_self file.length file (Nat.le_refl _)

/-- C8 (corrected, counterexample): a client that writes exactly the three
bytes `b"EOF"` to the upload stream and closes it gets an empty file stored:
the receive loop treats the chunk `b"EOF"` as a terminator and discards it,
so the stored byte sequence differs from what the client wrote. -/
theorem updRecvLoop_eofChunk_truncates :
    updRecvLoop [strBytes "EOF"] = [] ∧
    updRecvLoop [strBytes "EOF"] ≠ List.flatten [strBytes "EOF"] := by
  decide

/-- C8 (amended): upload completion is signalled by end of stream OR by a
chunk exactly equal to the three bytes `b"EOF"`: for every sequence of
nonempty stream chunks none of which equals `b"EOF"`, the upload handler
stores exactly their concatenation, and the DWN send loop of a subsequent
download reproduces that identical byte sequence. -/
theorem updRecvLoop_storesStream (cs : List (List Nat))
    (h : ∀ c ∈ cs, c ≠ [] ∧ c ≠ strBytes "EOF") :
    updRecvLoop cs = cs.flatten ∧ dwnSend (updRecvLoop cs) = cs.flatten := by
  have main : updRecvLoop cs = cs.flatten := by
    induction cs with
    | nil => rfl
    | cons c rest ih =>
      have hc := h c (List.mem_cons_self _ _)
      have hcond : ¬ (c = [] || c = strBytes "EOF") = true := by
        simp [hc.1, hc.2]
      simp only [updRecvLoop, List.flatten_cons]
      rw [if_neg hcond, ih fun x hx => h x (List.mem_cons_of_mem _ hx)]
  exact ⟨main, by rw [main, dwnSend_eq_self]⟩

/-- Witness for C8's amended statement at a concrete two-chunk stream. -/
theorem updRecvLoop_storesStream_witness :
    updRecvLoop [strBytes "abc", strBytes "de"] = strBytes "abcde" ∧
    dwnSend (updRecvLoop [strBytes "abc", strBytes "de"]) = strBytes "abcde" := by
  have h := updRecvLoop_storesStream [strBytes "abc", strBytes "de"] (by decide)
  refine ⟨?_, ?_⟩
  · rw [h.1]; decide
  · rw [h.2]; decide

/-! ## The C3 end-to-end scenario: fresh store (with the server's
`uploads` directory), authenticated user "Han" -/

/-- State after "Han" authenticates against an empty store. -/
def hanState0 : SState := ⟨[], ["uploads"], [], ["Han"]⟩

/-- After `CRT Cantina`. -/
def hanCRT : HandlerResult := client_handler_step hanState0 "Han" "CRT Cantina"

/-- After `MSG Cantina Hello`. -/
def hanMSG : HandlerResult := client_handler_step hanCRT.state "Han" "MSG Cantina Hello"

/-- After `RDT Cantina`. -/
def hanRDT : HandlerResult := client_handler_step hanMSG.state "Han" "RDT Cantina"

/-- C3 (corrected, counterexample): in the claimed scenario the `CRT` reply
is as stated, but the first posted message is stored with ordinal 1 (the
message number is the line count of the thread file, whose line 0 is the
creator header), and the `RDT` reply contains "1 Han: Hello", not
"0 Han: Hello". -/
theorem msg_ordinal_scenario_zeroBased_fails :
    hanCRT.replies = ["Thread Cantina created successfully"] ∧
    hanMSG.state.files = [("Cantina", ["Han\n", "1 Han: Hello\n"])] ∧
    hanRDT.replies = ["Thread Cantina:\n1 Han: Hello\n"] ∧
    strContains (hanRDT.replies.headD "") "0 Han: Hello" = false := by
  decide

/-- C3 (amended): message ordinals equal the line index of the message in
the thread file, whose line 0 is the creator header — so they are 1-based
for messages: in the scenario the first posted message has ordinal 1 and
the `RDT` reply contains the line "1 Han: Hello". -/
theorem msg_ordinal_scenario_oneBased :
    hanMSG.state.files = [("Cantina", ["Han\n", "1 Han: Hello\n"])] ∧
    strContains (hanRDT.replies.headD "") "1 Han: Hello" = true := by
  decide

/-- C10: a name is listed as a thread by `get_thread_list` exactly when the
working directory contains an entry with that name that is a regular file,
is not hidden (no leading dot), and is none of `server.py`, `client.py`,
`credentials.txt` — regardless of whether it was ever created by a `CRT`
command. -/
theorem get_thread_list_membership (listing : List DirEntry) (name : String) :
    name ∈ get_thread_list listing ↔
      ∃ e, e ∈ listing ∧ e.name = name ∧ e.isFile = true ∧
        pyStartswith e.name "." = false ∧ name ∉ threadExclusions := by
  unfold get_thread_list
  rw [List.mem_map]
  constructor
  · rintro ⟨e, he, rfl⟩
    rw [List.mem_filter] at he
    refine ⟨e, he.1, rfl, ?_, ?_, ?_⟩
    · have h := he.2
      simp only [Bool.and_eq_true, Bool.not_eq_true'] at h
      exact h.1.1
    · have h := he.2
      simp only [Bool.and_eq_true, Bool.not_eq_true'] at h
      exact h.1.2
    · have h := he.2
      simp only [Bool.and_eq_true, Bool.not_eq_true'] at h
      intro hmem
      have : threadExclusions.contains e.name = true := List.elem_eq_true_of_mem hmem
      rw [h.2] at this
      cases this
  · rintro ⟨e, he, rfl, hfile, hdot, hexcl⟩
    refine ⟨e, ?_, rfl⟩
    rw [List.mem_filter]
    refine ⟨he, ?_⟩
    have hcont : threadExclusions.contains e.name = false := by
      cases hc : threadExclusions.contains e.name with
      | false => rfl
      | true => exact absurd (List.mem_of_elem_eq_true hc) hexcl
    simp [hfile, hdot, hcont, hexcl]

/-- Witness for C10: `run_test.py` — a file never created by `CRT` —
appears as a thread title in a directory also holding `server.py`, the
`uploads` directory, a hidden file and `credentials.txt`. -/
theorem get_thread_list_membership_witness :
    "run_test.py" ∈ get_thread_list
      [⟨"server.py", true⟩, ⟨"uploads", false⟩, ⟨"run_test.py", true⟩,
       ⟨".hidden", true⟩, ⟨"credentials.txt", true⟩] :=
  (get_thread_list_membership _ _).mpr
    ⟨⟨"run_test.py", true⟩, by decide, rfl, rfl, by decide, by decide⟩

/-! ## Reply counts and fatality of the per-verb handlers -/

theorem handleXIT_shape (st : SState) (u : String) :
    (handleXIT st u).fatal = false ∧ (handleXIT st u).replies.length = 1 :=
  ⟨rfl, rfl⟩

theorem handleCRT_shape (st : SState) (u a : String) :
    (handleCRT st u a).fatal = false ∧ (handleCRT st u a).replies.length = 1 := by
  unfold handleCRT
  repeat' first
    | exact ⟨rfl, rfl⟩
    | dsimp only
    | split

theorem handleLST_shape (st : SState) :
    (handleLST st).fatal = false ∧ (handleLST st).replies.length = 1 := by
  unfold handleLST
  repeat' first
    | exact ⟨rfl, rfl⟩
    | dsimp only
    | split

theorem handleMSG_shape (st : SState) (u a : String) :
    ((handleMSG st u a).fatal = false ∧ (handleMSG st u a).replies.length = 1) ∨
    ((handleMSG st u a).fatal = true ∧ (handleMSG st u a).replies.length = 0) := by
  unfold handleMSG
  repeat' first
    | exact Or.inl ⟨rfl, rfl⟩
    | exact Or.inr ⟨rfl, rfl⟩
    | dsimp only
    | split

theorem handleRDT_shape (st : SState) (a : String) :
    ((handleRDT st a).fatal = false ∧ (handleRDT st a).replies.length = 1) ∨
    ((handleRDT st a).fatal = true ∧ (handleRDT st a).replies.length = 0) := by
  unfold handleRDT
  repeat' first
    | exact Or.inl ⟨rfl, rfl⟩
    | exact Or.inr ⟨rfl, rfl⟩
    | dsimp only
    | split

theorem handleDLT_shape (st : SState) (u a : String) :
    ((handleDLT st u a).fatal = false ∧ (handleDLT st u a).replies.length = 1) ∨
    ((handleDLT st u a).fatal = true ∧ (handleDLT st u a).replies.length = 0) := by
  unfold handleDLT
  repeat' first
    | exact Or.inl ⟨rfl, rfl⟩
    | exact Or.inr ⟨rfl, rfl⟩
    | dsimp only
    | split

theorem handleEDT_shape (st : SState) (u a : String) :
    ((handleEDT st u a).fatal = false ∧ (handleEDT st u a).replies.length = 1) ∨
    ((handleEDT st u a).fatal = true ∧ (handleEDT st u a).replies.length = 0) := by
  unfold handleEDT
  repeat' first
    | exact Or.inl ⟨rfl, rfl⟩
    | exact Or.inr ⟨rfl, rfl⟩
    | dsimp only
    | split

theorem handleRMV_shape (st : SState) (u a : String) :
    ((handleRMV st u a).fatal = false ∧ (handleRMV st u a).replies.length = 1) ∨
    ((handleRMV st u a).fatal = true ∧ (handleRMV st u a).replies.length = 0) := by
  unfold handleRMV
  repeat' first
    | exact Or.inl ⟨rfl, rfl⟩
    | exact Or.inr ⟨rfl, rfl⟩
    | dsimp only
    | split

theorem handleUPD_shape (st : SState) (u a : String) :
    ((handleUPD st u a).fatal = false ∧
      ((handleUPD st u a).replies.length = 1 ∨ (handleUPD st u a).replies.length = 2)) ∨
    ((handleUPD st u a).fatal = true ∧ (handleUPD st u a).replies.length = 1) := by
  unfold handleUPD
  repeat' first
    | exact Or.inl ⟨rfl, Or.inl rfl⟩
    | exact Or.inl ⟨rfl, Or.inr rfl⟩
    | exact Or.inr ⟨rfl, rfl⟩
    | dsimp only
    | split

theorem handleDWN_shape (st : SState) (a : String) :
    (handleDWN st a).fatal = false ∧
      ((handleDWN st a).replies.length = 1 ∨ (handleDWN st a).replies.length = 2) := by
  unfold handleDWN
  repeat' first
    | exact ⟨rfl, Or.inl rfl⟩
    | exact ⟨rfl, Or.inr rfl⟩
    | dsimp only
    | split

/-! ### Combinators turning handler shapes into the dispatcher's
reply-count contract for verb `v`. -/

theorem replyShape_of_ok1 {r : HandlerResult} {v : String}
    (hf : r.fatal = false) (hl : r.replies.length = 1) :
    (r.fatal = false → r.replies.length = 1 ∨
      (r.replies.length = 2 ∧ (v = "UPD" ∨ v = "DWN"))) ∧
    (r.fatal = true → r.replies.length = 0 ∨
      (r.replies.length = 1 ∧ v = "UPD")) := by
  refine ⟨fun _ => Or.inl hl, fun hc => ?_⟩
  rw [hf] at hc
  cases hc

theorem replyShape_of_okOrFatal {r : HandlerResult} {v : String}
    (hs : (r.fatal = false ∧ r.replies.length = 1) ∨
          (r.fatal = true ∧ r.replies.length = 0)) :
    (r.fatal = false → r.replies.length = 1 ∨
      (r.replies.length = 2 ∧ (v = "UPD" ∨ v = "DWN"))) ∧
    (r.fatal = true → r.replies.length = 0 ∨
      (r.replies.length = 1 ∧ v = "UPD")) := by
  rcases hs with ⟨hf, hl⟩ | ⟨hf, hl⟩
  · exact replyShape_of_ok1 hf hl
  · refine ⟨fun hc => ?_, fun _ => Or.inl hl⟩
    rw [hf] at hc
    cases hc

theorem replyShape_of_upd {r : HandlerResult} {v : String} (hv : v = "UPD")
    (hs : (r.fatal = false ∧ (r.replies.length = 1 ∨ r.replies.length = 2)) ∨
          (r.fatal = true ∧ r.replies.length = 1)) :
    (r.fatal = false → r.replies.length = 1 ∨
      (r.replies.length = 2 ∧ (v = "UPD" ∨ v = "DWN"))) ∧
    (r.fatal = true → r.replies.length = 0 ∨
      (r.replies.length = 1 ∧ v = "UPD")) := by
  rcases hs with ⟨hf, hl | hl⟩ | ⟨hf, hl⟩
  · exact replyShape_of_ok1 hf hl
  · refine ⟨fun _ => Or.inr ⟨hl, Or.inl hv⟩, fun hc => ?_⟩
    rw [hf] at hc
    cases hc
  · refine ⟨fun hc => ?_, fun _ => Or.inr ⟨hl, hv⟩⟩
    rw [hf] at hc
    cases hc

theorem replyShape_of_dwn {r : HandlerResult} {v : String} (hv : v = "DWN")
    (hs : r.fatal = false ∧ (r.replies.length = 1 ∨ r.replies.length = 2)) :
    (r.fatal = false → r.replies.length = 1 ∨
      (r.replies.length = 2 ∧ (v = "UPD" ∨ v = "DWN"))) ∧
    (r.fatal = true → r.replies.length = 0 ∨
      (r.replies.length = 1 ∧ v = "UPD")) := by
  rcases hs with ⟨hf, hl | hl⟩
  · exact replyShape_of_ok1 hf hl
  · refine ⟨fun _ => Or.inr ⟨hl, Or.inr hv⟩, fun hc => ?_⟩
    rw [hf] at hc
    cases hc

/-- C5 (corrected, counterexample): two command datagrams that yield no
reply frame at all.  An empty command is skipped by
`if not cmd_data: continue`; and `RDT uploads` — the `uploads` directory is
created unconditionally at server start — passes the `os.path.exists`
check, then `open()` raises `IsADirectoryError`, which escapes to
server.py line 675 and kills the session with zero replies. -/
theorem dispatcher_unansweredCommands :
    (client_handler_step ⟨[], ["uploads"], [], []⟩ "Han" "").replies = [] ∧
    (client_handler_step ⟨[], ["uploads"], [], []⟩ "Han" "").fatal = false ∧
    (client_handler_step ⟨[], ["uploads"], [], []⟩ "Han" "RDT uploads").replies = [] ∧
    (client_handler_step ⟨[], ["uploads"], [], []⟩ "Han" "RDT uploads").fatal = true := by
  decide

set_option maxHeartbeats 2000000 in
/-- C5 (amended): a nonempty command datagram from an authenticated session
— unknown and malformed command strings included — whose handler completes
without an uncaught exception is answered before the next command is read:
with exactly one reply frame, except that a UPD or DWN command that reaches
its stream handoff sends two (the ready signal and the completion
confirmation).  Empty command payloads are skipped without a reply, and a
command whose handler dies of an uncaught exception (opening a thread title
that names a directory, such as the always-present `uploads`) kills the
session having sent no reply — except a fatal UPD, which sends only the
ready frame first. -/
theorem dispatcher_answersNonemptyCommands (st : SState) (u cmd : String)
    (h : cmd ≠ "") :
    ((client_handler_step st u cmd).fatal = false →
      (client_handler_step st u cmd).replies.length = 1 ∨
      ((client_handler_step st u cmd).replies.length = 2 ∧
        (pyUpper (pySplitOnce (pyStrip cmd)).1 = "UPD" ∨
         pyUpper (pySplitOnce (pyStrip cmd)).1 = "DWN"))) ∧
    ((client_handler_step st u cmd).fatal = true →
      (client_handler_step st u cmd).replies.length = 0 ∨
      ((client_handler_step st u cmd).replies.length = 1 ∧
        pyUpper (pySplitOnce (pyStrip cmd)).1 = "UPD")) := by
  unfold client_handler_step
  rw [if_neg h]
  dsimp only
  repeat' split
  all_goals first
    | exact replyShape_of_ok1 (handleXIT_shape st u).1 (handleXIT_shape st u).2
    | exact replyShape_of_ok1 (handleCRT_shape st u _).1 (handleCRT_shape st u _).2
    | exact replyShape_of_ok1 (handleLST_shape st).1 (handleLST_shape st).2
    | exact replyShape_of_okOrFatal (handleMSG_shape st u _)
    | exact replyShape_of_okOrFatal (handleRDT_shape st _)
    | exact replyShape_of_okOrFatal (handleDLT_shape st u _)
    | exact replyShape_of_okOrFatal (handleEDT_shape st u _)
    | exact replyShape_of_okOrFatal (handleRMV_shape st u _)
    | exact replyShape_of_ok1 rfl rfl
    | exact replyShape_of_upd (by assumption) (handleUPD_shape st u _)
    | exact replyShape_of_dwn (by assumption) (handleDWN_shape st _)

/-- Witness for C5's amended statement: the malformed command "FOO bar"
on a store holding only the `uploads` directory. -/
theorem dispatcher_answersNonemptyCommands_witness :
    ((client_handler_step ⟨[], ["uploads"], [], []⟩ "Han" "FOO bar").fatal = false →
      (client_handler_step ⟨[], ["uploads"], [], []⟩ "Han" "FOO bar").replies.length = 1 ∨
      ((client_handler_step ⟨[], ["uploads"], [], []⟩ "Han" "FOO bar").replies.length = 2 ∧
        (pyUpper (pySplitOnce (pyStrip "FOO bar")).1 = "UPD" ∨
         pyUpper (pySplitOnce (pyStrip "FOO bar")).1 = "DWN"))) ∧
    ((client_handler_step ⟨[], ["uploads"], [], []⟩ "Han" "FOO bar").fatal = true →
      (client_handler_step ⟨[], ["uploads"], [], []⟩ "Han" "FOO bar").replies.length = 0 ∨
      ((client_handler_step ⟨[], ["uploads"], [], []⟩ "Han" "FOO bar").replies.length = 1 ∧
        pyUpper (pySplitOnce (pyStrip "FOO bar")).1 = "UPD")) :=
  dispatcher_answersNonemptyCommands ⟨[], ["uploads"], [], []⟩ "Han" "FOO bar" (by decide)

theorem string_mk_data (s : String) : String.mk s.data = s := by
  cases s
  rfl

theorem pySplitOnce_append (t m : String) (ht : ∀ c ∈ t.data, c ≠ ' ') :
    pySplitOnce (t ++ " " ++ m) = (t, some m) := by
  unfold pySplitOnce
  have hdata : (t ++ " " ++ m).data = t.data ++ ' ' :: m.data := by
    simp [String.data_append]
  rw [hdata, splitOnce_append ' ' t.data m.data (fun hm => ht ' ' hm rfl)]
  simp [string_mk_data]

theorem pySplit2_append (t n b : String)
    (ht : ∀ c ∈ t.data, c ≠ ' ') (hn : ∀ c ∈ n.data, c ≠ ' ') :
    pySplit2 (t ++ " " ++ n ++ " " ++ b) = [t, n, b] := by
  unfold pySplit2
  have hdata : (t ++ " " ++ n ++ " " ++ b).data =
      t.data ++ ' ' :: (n.data ++ ' ' :: b.data) := by
    simp [String.data_append]
  rw [hdata, splitOnce_append ' ' t.data _ (fun hm => ht ' ' hm rfl)]
  simp [splitOnce_append ' ' n.data b.data (fun hm => hn ' ' hm rfl), string_mk_data]

/-- C6 (corrected, counterexample): the authorship test is a textual prefix
check on the whole record line, not a comparison of the stored author
field.  User "Yoda: a" posts "hi" to thread T (the `MSG` handler stores the
line "1 Yoda: a: hi"); then the DIFFERENT user "Yoda" issues `DLT T 1` on
that in-bounds message: instead of the ownership-violation reply, the
deletion succeeds and the thread file is changed. -/
theorem dlt_authorPrefix_bypass :
    (handleMSG ⟨[("T", ["Han\n"])], ["uploads"], [], []⟩ "Yoda: a" "T hi").state.files =
      [("T", ["Han\n", "1 Yoda: a: hi\n"])] ∧
    handleDLT ⟨[("T", ["Han\n", "1 Yoda: a: hi\n"])], ["uploads"], [], []⟩ "Yoda" "T 1" =
      hrOk ⟨[("T", ["Han\n"])], ["uploads"], [], []⟩ ["Message 1 deleted from T"] ∧
    "Yoda" ≠ "Yoda: a" := by
  decide

/-- C6 (amended): for every DLT or EDT naming an in-bounds message whose
record line does NOT start with `"<ordinal> <sessionUsername>:"`, the
server replies with the ownership-violation message, the thread file is
unchanged, and the session continues.  (For authors and usernames free of
spaces and colons this prefix test coincides with comparing the stored
author against the session username; a username that the stored line
extends past a colon can defeat it, as the counterexample shows.) -/
theorem dlt_edt_ownershipViolation_leavesStoreUnchanged
    (st : SState) (u t numStr body : String) (lines : List String) (k : Int)
    (hlook : st.files.lookup t = some lines)
    (hnum : pyInt? numStr = some k)
    (hpos : 0 < k) (hlt : k < (lines.length : Int))
    (hns : pyStartswith (lines.getD k.toNat "") (toString k ++ " " ++ u ++ ":") = false)
    (ht : ∀ c ∈ t.data, c ≠ ' ') (hn : ∀ c ∈ numStr.data, c ≠ ' ') :
    handleDLT st u (t ++ " " ++ numStr) =
      hrOk st ["You can only delete your own messages"] ∧
    handleEDT st u (t ++ " " ++ numStr ++ " " ++ body) =
      hrOk st ["You can only edit your own messages"] := by
  have hex : fsExists st t = true := by
    unfold fsExists
    rw [hlook]
    rfl
  have hbound : ¬ (k ≤ 0 ∨ (lines.length : Int) ≤ k) := by omega
  have hnot : ¬ pyStartswith (lines.getD k.toNat "")
      (toString k ++ " " ++ u ++ ":") = true := by
    rw [hns]
    simp
  constructor
  · unfold handleDLT
    rw [pySplitOnce_append t numStr ht]
    simp only [hnum, hex, hlook]
    rw [if_neg (by simp), if_neg hbound, if_pos hnot]
  · unfold handleEDT
    rw [pySplit2_append t numStr body ht hn]
    simp only [hnum, hex, hlook]
    rw [if_neg (by simp), if_neg hbound, if_pos hnot]

/-- Witness for C6's amended statement: "Leia" attempting `DLT T 1` and
`EDT T 1 new` on the message "1 Yoda: hi" stored in thread T. -/
theorem dlt_edt_ownershipViolation_witness :
    handleDLT ⟨[("T", ["Han\n", "1 Yoda: hi\n"])], ["uploads"], [], []⟩ "Leia"
        ("T" ++ " " ++ "1") =
      hrOk ⟨[("T", ["Han\n", "1 Yoda: hi\n"])], ["uploads"], [], []⟩
        ["You can only delete your own messages"] ∧
    handleEDT ⟨[("T", ["Han\n", "1 Yoda: hi\n"])], ["uploads"], [], []⟩ "Leia"
        ("T" ++ " " ++ "1" ++ " " ++ "new") =
      hrOk ⟨[("T", ["Han\n", "1 Yoda: hi\n"])], ["uploads"], [], []⟩
        ["You can only edit your own messages"] :=
  dlt_edt_ownershipViolation_leavesStoreUnchanged
    ⟨[("T", ["Han\n", "1 Yoda: hi\n"])], ["uploads"], [], []⟩ "Leia" "T" "1" "new"
    ["Han\n", "1 Yoda: hi\n"] 1
    (by decide) (by decide) (by decide) (by decide) (by decide)
    (by decide) (by decide)

theorem replaceFirstL_of_isPrefixOf (pat rep s : List Char)
    (h : pat.isPrefixOf s = true) :
    replaceFirstL pat rep s = rep ++ s.drop pat.length := by
  cases s with
  | nil => simp [replaceFirstL, h]
  | cons c r => simp [replaceFirstL, h]

theorem pyStripL_ne_nil_of_mem (l : List Char) (c : Char) (hc : c ∈ l)
    (hcs : isPySpace c = false) : pyStripL l ≠ [] := by
  unfold pyStripL
  intro h
  rw [List.reverse_eq_nil_iff, List.dropWhile_eq_nil_iff] at h
  have hc2 : c ∈ l.dropWhile isPySpace := by
    have hsplit := List.takeWhile_append_dropWhile (p := isPySpace) (l := l)
    rw [← hsplit] at hc
    rcases List.mem_append.mp hc with h1 | h1
    · have := List.mem_takeWhile_imp h1
      rw [hcs] at this
      cases this
    · exact h1
  have := h c (List.mem_reverse.mpr hc2)
  rw [hcs] at this
  cases this

theorem renumberAux_getElem? :
    ∀ (ls : List String) (i j : Nat),
      (renumberAux i ls)[j]? = (ls[j]?).map (rewriteLine (i + j)) := by
  intro ls
  induction ls with
  | nil => intro i j; simp [renumberAux]
  | cons l rest ih =>
    intro i j
    cases j with
    | zero => simp [renumberAux]
    | succ j' =>
      have harith : i + 1 + j' = i + (j' + 1) := by omega
      simp only [renumberAux, List.getElem?_cons_succ, ih (i + 1) j', harith]

theorem rewriteLine_upload (i : Nat) (u f : String)
    (hsp : ∀ c ∈ u.data, c ≠ ' ') :
    rewriteLine i (u ++ (" uploaded " ++ (f ++ "\n"))) =
      toString i ++ (" uploaded " ++ (f ++ "\n")) := by
  have hsp1 : ((" uploaded " : String)).data = ' ' :: ("uploaded " : String).data := rfl
  have hD : (" uploaded " ++ (f ++ "\n")).data =
      ' ' :: (("uploaded " : String).data ++ (f ++ "\n").data) := by
    rw [String.data_append, hsp1]
    rfl
  have hld : (u ++ (" uploaded " ++ (f ++ "\n"))).data =
      u.data ++ ' ' :: (("uploaded " : String).data ++ (f ++ "\n").data) := by
    rw [String.data_append, hD]
  have hmemSpace : ' ' ∈ (u ++ (" uploaded " ++ (f ++ "\n"))).data := by
    rw [hld]
    exact List.mem_append_right _ (List.mem_cons_self _ _)
  have hmemU : 'u' ∈ (u ++ (" uploaded " ++ (f ++ "\n"))).data := by
    rw [hld]
    refine List.mem_append_right _ (List.mem_cons_of_mem _ ?_)
    exact List.mem_append_left _ (by decide)
  have hne : pyStrip (u ++ (" uploaded " ++ (f ++ "\n"))) ≠ "" := by
    unfold pyStrip
    intro hcontra
    have hdat : pyStripL (u ++ (" uploaded " ++ (f ++ "\n"))).data = [] := by
      have := congrArg String.data hcontra
      simpa using this
    exact pyStripL_ne_nil_of_mem _ 'u' hmemU (by decide) hdat
  have hcontains : (u ++ (" uploaded " ++ (f ++ "\n"))).data.contains ' ' = true :=
    List.elem_eq_true_of_mem hmemSpace
  have hft : firstToken (u ++ (" uploaded " ++ (f ++ "\n"))) = u := by
    unfold firstToken
    rw [hld, splitOnce_append ' ' u.data _ (fun hm => hsp ' ' hm rfl),
      string_mk_data u]
  unfold rewriteLine
  rw [if_pos ⟨hne, hcontains⟩, hft]
  unfold replaceFirst
  have hpatd : (u ++ " ").data = u.data ++ [' '] := by
    rw [String.data_append]
  have hld2 : (u ++ (" uploaded " ++ (f ++ "\n"))).data =
      (u.data ++ [' ']) ++ (("uploaded " : String).data ++ (f ++ "\n").data) := by
    rw [hld, List.append_assoc]
    rfl
  have hpre : (u.data ++ [' ']).isPrefixOf
      ((u.data ++ [' ']) ++ (("uploaded " : String).data ++ (f ++ "\n").data)) = true := by
    rw [List.isPrefixOf_iff_prefix]
    exact List.prefix_append _ _
  rw [hpatd, hld2, replaceFirstL_of_isPrefixOf _ _ _ hpre, List.drop_left]
  have hrepd : (toString i ++ " ").data = (toString i).data ++ [' '] := by
    rw [String.data_append]
  have htgt : (toString i ++ (" uploaded " ++ (f ++ "\n"))).data =
      ((toString i).data ++ [' ']) ++ (("uploaded " : String).data ++ (f ++ "\n").data) := by
    rw [String.data_append, hD, List.append_assoc]
    rfl
  rw [hrepd]
  calc String.mk (((toString i).data ++ [' ']) ++
          (("uploaded " : String).data ++ (f ++ "\n").data))
      = String.mk ((toString i ++ (" uploaded " ++ (f ++ "\n"))).data) := by rw [htgt]
    _ = toString i ++ (" uploaded " ++ (f ++ "\n")) := string_mk_data _

/-- C9: after a successful DLT pops message `k`, the renumbering pass
rewrites the leading space-delimited token of every later line to that
line's new index — in particular an upload-record line
`"<username> uploaded <filename>"` at original index `j + 1 > k` ends up at
index `j` with its leading username token replaced by the number `j`. -/
theorem dlt_renumber_rewritesUploadRecord
    (ls : List String) (k j : Nat) (u f : String)
    (hk : k ≤ j)
    (hline : ls[j + 1]? = some (u ++ (" uploaded " ++ (f ++ "\n"))))
    (hsp : ∀ c ∈ u.data, c ≠ ' ') :
    (dltRewrite k ls)[j]? = some (toString j ++ (" uploaded " ++ (f ++ "\n"))) := by
  have hjlt : j + 1 < ls.length := by
    rcases List.getElem?_eq_some.mp hline with ⟨hb, _⟩
    exact hb
  have hlen_take : (ls.take k).length = k := by
    rw [List.length_take]
    omega
  have hpop_take : ((ls.take k ++ ls.drop (k + 1)).take k) = ls.take k := by
    have h := List.take_left (ls.take k) (ls.drop (k + 1))
    rwa [hlen_take] at h
  have hpop_drop : ((ls.take k ++ ls.drop (k + 1)).drop k) = ls.drop (k + 1) := by
    have h := List.drop_left (ls.take k) (ls.drop (k + 1))
    rwa [hlen_take] at h
  have hform : dltRewrite k ls = ls.take k ++ renumberAux k (ls.drop (k + 1)) := by
    simp only [dltRewrite]
    rw [hpop_take, hpop_drop]
  rw [hform, List.getElem?_append_right (by omega : (ls.take k).length ≤ j),
    hlen_take, renumberAux_getElem?, List.getElem?_drop]
  have hidx : k + 1 + (j - k) = j + 1 := by omega
  have hexp : k + (j - k) = j := by omega
  rw [hidx, hexp, hline]
  simp only [Option.map_some']
  rw [rewriteLine_upload j u f hsp]

/-- Witness for C9: thread file ["Han\n", "1 Han: a\n",
"Yoda uploaded x.txt\n"]; deleting message 1 renumbers the upload record
to "1 uploaded x.txt\n" — its leading token "Yoda" became the number 1. -/
theorem dlt_renumber_rewritesUploadRecord_witness :
    (dltRewrite 1 ["Han\n", "1 Han: a\n", "Yoda uploaded x.txt\n"])[1]? =
      some (toString 1 ++ (" uploaded " ++ ("x.txt" ++ "\n"))) :=
  dlt_renumber_rewritesUploadRecord
    ["Han\n", "1 Han: a\n", "Yoda uploaded x.txt\n"] 1 1 "Yoda" "x.txt"
    (by decide) (by decide) (by decide)
